import Mathlib

namespace FileFeed

/-!
Verification of the feed-reading pipeline in `examples/file_feed_asyncio.py`
(class `FeedReader`): a bounded producer/consumer pipeline with cooperative
abort and cursor tracking.

The embedding has three parts:
1. a JSON model for the metadata artifact written by the workers
   (`json.dumps` of the item's attribute mapping, and its parse);
2. output-path derivation (`os.path.join(output_dir, id)` and the
   `+ '.json'` metadata suffix);
3. a small-step transition system for the pipeline itself: one producer
   task (`_get_from_feed_and_enqueue`), N worker tasks
   (`_process_files_from_queue`), the shared `asyncio.Queue(maxsize=N)`,
   the `_aborted` flag set by the SIGINT handler (`abort`), and the
   `_cursor` field read by `cursor()`.
-/

/-! ### JSON values

The metadata file is written as `json.dumps(file_obj.to_dict())`.  JSON
values are modelled with integer numbers; `dumps` follows `json.dumps`
defaults for containers (separators `", "` and `": "`), and `loads`
models `json.loads` on the strings `dumps` produces. -/

/-- A JSON value: null, booleans, (integer) numbers, strings, arrays and
objects (an object is an ordered list of key/value pairs). -/
inductive JValue where
  | null : JValue
  | bool (b : Bool) : JValue
  | num (n : Int) : JValue
  | str (s : String) : JValue
  | arr (xs : List JValue) : JValue
  | obj (kvs : List (String × JValue)) : JValue

/-- The character for a decimal digit. -/
def digitChar : Nat → Char
  | 0 => '0' | 1 => '1' | 2 => '2' | 3 => '3' | 4 => '4'
  | 5 => '5' | 6 => '6' | 7 => '7' | 8 => '8' | 9 => '9'
  | _ => '0'

/-- The value of a decimal digit character, `none` for other characters. -/
def charDigitVal (c : Char) : Option Nat :=
  if c = '0' then some 0 else if c = '1' then some 1
  else if c = '2' then some 2 else if c = '3' then some 3
  else if c = '4' then some 4 else if c = '5' then some 5
  else if c = '6' then some 6 else if c = '7' then some 7
  else if c = '8' then some 8 else if c = '9' then some 9
  else none

/-- Decimal digits of a natural number, most significant first. -/
def natChars (n : Nat) : List Char :=
  if _h : n < 10 then [digitChar n]
  else natChars (n / 10) ++ [digitChar (n % 10)]
  termination_by n
  decreasing_by exact Nat.div_lt_self (by omega) (by omega)

/-- Decimal form of an integer, with a leading minus sign if negative. -/
def intChars (n : Int) : List Char :=
  if n < 0 then '-' :: natChars n.natAbs else natChars n.natAbs

/-- String-escaping of one character, as `json.dumps` does for the
characters it must escape; other characters are emitted literally
(the artifact is the UTF-8 form of the text). -/
def escChar (c : Char) : List Char :=
  if c = '"' then ['\\', '"']
  else if c = '\\' then ['\\', '\\']
  else if c = '\n' then ['\\', 'n']
  else if c = '\t' then ['\\', 't']
  else if c = '\r' then ['\\', 'r']
  else [c]

/-- Escape every character of a string body. -/
def escString : List Char → List Char
  | [] => []
  | c :: cs => escChar c ++ escString cs

/-- A serialized object key: quoted escaped string followed by `": "`. -/
def keyChars (k : String) : List Char :=
  '"' :: (escString k.data ++ ['"', ':', ' '])

mutual

/-- Serialization of a JSON value, as `json.dumps` (default separators). -/
def dumpsL : JValue → List Char
  | .num n => intChars n
  | .str s => '"' :: (escString s.data ++ ['"'])
  | .arr (x :: xs) => '[' :: arrItemsL x xs
  | .obj (kv :: kvs) => '{' :: objItemsL kv kvs
  | .arr [] => ['[', ']']
  | .null => ['n', 'u', 'l', 'l']
  | .obj [] => ['{', '}']
  | .bool false => ['f', 'a', 'l', 's', 'e']
  | .bool true => ['t', 'r', 'u', 'e']
termination_by v => sizeOf v
decreasing_by all_goals (simp_wf; try omega)

/-- Serialized array elements, `", "`-separated, with the closing `]`. -/
def arrItemsL : JValue → List JValue → List Char
  | x, [] => dumpsL x ++ [']']
  | x, y :: ys => dumpsL x ++ [',', ' '] ++ arrItemsL y ys
termination_by x xs => sizeOf x + sizeOf xs
decreasing_by all_goals (simp_wf; try omega)

/-- Serialized object members, `", "`-separated, with the closing brace. -/
def objItemsL : String × JValue → List (String × JValue) → List Char
  | (k, v), [] => keyChars k ++ dumpsL v ++ ['}']
  | (k, v), kv :: kvs => keyChars k ++ dumpsL v ++ [',', ' '] ++ objItemsL kv kvs
termination_by kv kvs => sizeOf kv + sizeOf kvs
decreasing_by all_goals (simp_wf; try omega)

end

/-- The serialized form of a JSON value as a string (model of `json.dumps`). -/
def dumps (v : JValue) : String := String.mk (dumpsL v)

/-- Reverse of `escChar` on the character after a backslash. -/
def unescC (c : Char) : Option Char :=
  if c = '"' then some '"'
  else if c = '\\' then some '\\'
  else if c = 'n' then some '\n'
  else if c = 't' then some '\t'
  else if c = 'r' then some '\r'
  else none

mutual

/-- Parse a string body (after the opening quote) up to the closing quote,
undoing escapes; returns the content and the remaining input. -/
def parseStrBody : List Char → Option (List Char × List Char)
  | [] => none
  | c :: cs =>
    if c = '"' then some ([], cs)
    else if c = '\\' then parseStrEsc cs
    else
      match parseStrBody cs with
      | none => none
      | some (content, rest) => some (c :: content, rest)
termination_by cs => (cs.length, 0)
decreasing_by all_goals (simp_wf; omega)

/-- Parse the character after a backslash and the remaining string body. -/
def parseStrEsc : List Char → Option (List Char × List Char)
  | [] => none
  | e :: cs2 =>
    match unescC e with
    | none => none
    | some u =>
      match parseStrBody cs2 with
      | none => none
      | some (content, rest) => some (u :: content, rest)
termination_by cs => (cs.length, 1)
decreasing_by all_goals (simp_wf; omega)

end

/-- Accumulate decimal digits; stops at the first non-digit. -/
def parseDigitsAux : List Char → Nat → Nat × List Char
  | [], acc => (acc, [])
  | c :: cs, acc =>
    match charDigitVal c with
    | some d => parseDigitsAux cs (acc * 10 + d)
    | none => (acc, c :: cs)

/-- Parse a negative number: the input after the minus sign must begin
with a digit. -/
def parseNeg : List Char → Option (JValue × List Char)
  | [] => none
  | c2 :: cs2 =>
    match charDigitVal c2 with
    | some d =>
      let p := parseDigitsAux cs2 d
      some (.num (-(p.1 : Int)), p.2)
    | none => none

/-- Expect the tail of the literal `null`. -/
def expectNull : List Char → Option (JValue × List Char)
  | c1 :: c2 :: c3 :: rest =>
    if c1 = 'u' ∧ c2 = 'l' ∧ c3 = 'l' then some (.null, rest) else none
  | _ => none

/-- Expect the tail of the literal `true`. -/
def expectTrue : List Char → Option (JValue × List Char)
  | c1 :: c2 :: c3 :: rest =>
    if c1 = 'r' ∧ c2 = 'u' ∧ c3 = 'e' then some (.bool true, rest) else none
  | _ => none

/-- Expect the tail of the literal `false`. -/
def expectFalse : List Char → Option (JValue × List Char)
  | c1 :: c2 :: c3 :: c4 :: rest =>
    if c1 = 'a' ∧ c2 = 'l' ∧ c3 = 's' ∧ c4 = 'e' then
      some (.bool false, rest)
    else none
  | _ => none

mutual

/-- Parse one JSON value (model of `json.loads` on the output of `dumps`);
`f` is fuel bounding the nesting depth. -/
def parseVal : Nat → List Char → Option (JValue × List Char)
  | 0, _ => none
  | _ + 1, [] => none
  | f + 1, c :: cs =>
    match charDigitVal c with
    | some d =>
      let p := parseDigitsAux cs d
      some (.num (p.1 : Int), p.2)
    | none =>
      if c = '-' then parseNeg cs
      else if c = '"' then
        match parseStrBody cs with
        | some (content, rest) => some (.str (String.mk content), rest)
        | none => none
      else if c = 'n' then expectNull cs
      else if c = 't' then expectTrue cs
      else if c = 'f' then expectFalse cs
      else if c = '[' then parseArrStart f cs
      else if c = '{' then parseObjStart f cs
      else none
termination_by f _ => (f, 0)
decreasing_by all_goals (simp_wf; omega)

/-- Parse the inside of an array, just after the `[`. -/
def parseArrStart : Nat → List Char → Option (JValue × List Char)
  | _, [] => none
  | f, c2 :: cs2 =>
    if c2 = ']' then some (.arr [], cs2)
    else
      match parseArrItems f (c2 :: cs2) with
      | some (xs, rest) => some (.arr xs, rest)
      | none => none
termination_by f _ => (f, 2)
decreasing_by all_goals omega

/-- Parse one-or-more `", "`-separated array elements and the closing `]`. -/
def parseArrItems : Nat → List Char → Option (List JValue × List Char)
  | 0, _ => none
  | f + 1, cs =>
    match parseVal f cs with
    | none => none
    | some (v, rest) =>
      match rest with
      | ']' :: r2 => some ([v], r2)
      | ',' :: ' ' :: r2 =>
        match parseArrItems f r2 with
        | some (vs, r3) => some (v :: vs, r3)
        | none => none
      | _ => none
termination_by f _ => (f, 1)
decreasing_by all_goals (simp_wf; omega)

/-- Parse the inside of an object, just after the opening brace. -/
def parseObjStart : Nat → List Char → Option (JValue × List Char)
  | _, [] => none
  | f, c2 :: cs2 =>
    if c2 = '}' then some (.obj [], cs2)
    else
      match parseObjItems f (c2 :: cs2) with
      | some (kvs, rest) => some (.obj kvs, rest)
      | none => none
termination_by f _ => (f, 2)
decreasing_by all_goals omega

/-- Parse one-or-more `", "`-separated object members and the closing brace. -/
def parseObjItems : Nat → List Char → Option (List (String × JValue) × List Char)
  | 0, _ => none
  | _ + 1, [] => none
  | f + 1, c :: cs1 =>
    if c = '"' then
      match parseStrBody cs1 with
      | some (key, r1) =>
        match r1 with
        | ':' :: ' ' :: r2 =>
          match parseVal f r2 with
          | some (v, r3) =>
            match r3 with
            | '}' :: r4 => some ([(String.mk key, v)], r4)
            | ',' :: ' ' :: r4 =>
              match parseObjItems f r4 with
              | some (kvs, r5) => some ((String.mk key, v) :: kvs, r5)
              | none => none
            | _ => none
          | none => none
        | _ => none
      | none => none
    else none
termination_by f _ => (f, 1)
decreasing_by all_goals (simp_wf; omega)

end

/-- Parse a whole string as one JSON value with no trailing input
(model of `json.loads`). -/
def loads (s : String) : Option JValue :=
  match parseVal s.data.length s.data with
  | some (v, []) => some v
  | _ => none

/-! ### Round-trip: `loads (dumps v) = some v` -/

/-- The input does not begin with a decimal digit (so a parsed number
cannot run into it). -/
def headNonDigit : List Char → Prop
  | [] => True
  | c :: _ => charDigitVal c = none

/-- Ten to the number of decimal digits of `n`. -/
def tenPow (n : Nat) : Nat :=
  if _h : n < 10 then 10 else 10 * tenPow (n / 10)
  termination_by n
  decreasing_by exact Nat.div_lt_self (by omega) (by omega)

mutual

/-- Fuel sufficient for `parseVal` on the serialized form of a value. -/
def jsize : JValue → Nat
  | .arr (x :: xs) => 1 + jsizeL x xs
  | .obj (kv :: kvs) => 1 + jsizeO kv kvs
  | .arr [] => 1
  | .obj [] => 1
  | .str _ => 1
  | .num _ => 1
  | .bool _ => 1
  | .null => 1
termination_by v => sizeOf v
decreasing_by all_goals (simp_wf; try omega)

/-- Fuel sufficient for `parseArrItems` on serialized array elements. -/
def jsizeL : JValue → List JValue → Nat
  | x, [] => 1 + jsize x
  | x, y :: ys => 1 + max (jsize x) (jsizeL y ys)
termination_by x xs => sizeOf x + sizeOf xs
decreasing_by all_goals (simp_wf; try omega)

/-- Fuel sufficient for `parseObjItems` on serialized object members. -/
def jsizeO : String × JValue → List (String × JValue) → Nat
  | (_, v), [] => 1 + jsize v
  | (_, v), kv2 :: kvs => 1 + max (jsize v) (jsizeO kv2 kvs)
termination_by kv kvs => sizeOf kv + sizeOf kvs
decreasing_by all_goals (simp_wf; try omega)

end

/-! ### Output paths

`_process_files_from_queue` computes
`file_path = os.path.join(self._output_dir, file_obj.id)` and writes the
metadata to `file_path + '.json'` and the content to `file_path`. -/

/-- The string begins with the path separator. -/
def startsWithSlash (p : String) : Bool :=
  match p.data with
  | [] => false
  | c :: _ => c = '/'

/-- The string ends with the path separator. -/
def endsWithSlash (p : String) : Bool :=
  match p.data.getLast? with
  | some c => c = '/'
  | none => false

/-- Model of `os.path.join(a, b)` for POSIX paths with two components:
if `b` is absolute it is returned alone; otherwise it is appended to `a`,
inserting a separator unless `a` is empty or already ends with one. -/
def osPathJoin (a b : String) : String :=
  if startsWithSlash b then b
  else if a = "" ∨ endsWithSlash a then a ++ b
  else a ++ "/" ++ b

/-- The content artifact path for an item identifier:
`os.path.join(output_dir, id)`. -/
def contentPath (dir id : String) : String := osPathJoin dir id

/-- The metadata artifact path for an item identifier: `file_path + '.json'`. -/
def metaPath (dir id : String) : String := contentPath dir id ++ ".json"

/-- The directory with exactly one trailing separator appended unless it is
empty or already ends with one. -/
def dirSlash (dir : String) : String :=
  if dir = "" ∨ endsWithSlash dir then dir else dir ++ "/"

/-! ### The pipeline transition system

`FeedReader.run()` creates one producer task running
`_get_from_feed_and_enqueue` and `num_workers` worker tasks running
`_process_files_from_queue`, sharing `self._queue`
(an `asyncio.Queue(maxsize=num_workers)`) and `self._aborted`
(set by the SIGINT handler via `abort()`).  Every `await` is a possible
interleaving point, so the pipeline is embedded as a small-step
transition relation: one step per atomic section between awaits. -/

/-- One item of the file feed: identifier (a sha256 in practice), the
`download_url` context attribute, its attribute mapping, and the feed
position reached once it has been consumed. -/
structure Item where
  id : String
  url : String
  attrs : List (String × JValue)
  pos : Nat

/-- Modelled from the spec: the serialized metadata artifact for an item.
`file_obj.to_dict()` is part of the `vt` client library (not under the
example sources); per the spec the metadata artifact is "a full
serialization of the item's attribute mapping". -/
def metadataJson (it : Item) : String := dumps (.obj it.attrs)

/-- Parameters of one run: the items the remote feed would yield in order,
the index (if any) whose remote fetch raises, which items' content
fetch/write succeeds, the worker count (also the queue capacity), and the
starting cursor handed to the constructor. -/
structure Ctx where
  feed : List Item
  failAt : Option Nat
  procOk : Item → Bool
  numWorkers : Nat
  cursor0 : Option Nat

/-- Modelled from the spec: the feed's current position (`feed.cursor` in
the `vt` client library, read at line 50) after `y` items have been
yielded: the position of the last yielded item, or the starting position
when nothing has been yielded yet. -/
def Ctx.feedCursor (ctx : Ctx) (y : Nat) : Option Nat :=
  match y with
  | 0 => ctx.cursor0
  | k + 1 =>
    match ctx.feed.get? k with
    | some it => some it.pos
    | none => ctx.cursor0

/-- Program counter of the producer task `_get_from_feed_and_enqueue`:
about to pull item `i` from the feed; holding item `i` awaiting queue
space (line 47); about to test `self._aborted` (line 48); about to run
`self._cursor = feed.cursor` (line 50) with `y` items yielded; finished;
or dead because the fetch of item `i` raised. -/
inductive ProdPC where
  | fetching (i : Nat)
  | putting (i : Nat)
  | checking (i : Nat)
  | assignCursor (y : Nat)
  | done (y : Nat)
  | failed (i : Nat)
  deriving DecidableEq

/-- Program counter of one worker task `_process_files_from_queue`:
at the `while` test (line 59); inside `await self._queue.get()` (line 60);
holding a dequeued item (lines 63-74); loop exited normally; or dead
because the item's content fetch or file write raised. -/
inductive WorkPC where
  | checking
  | getting
  | processing (it : Item)
  | done
  | crashed (it : Item)

/-- The worker task has finished (its coroutine returned or raised). -/
def WorkPC.isExited : WorkPC → Bool
  | .done => true
  | .crashed _ => true
  | _ => false

/-- The producer task has finished (its coroutine returned or raised). -/
def ProdPC.isExited : ProdPC → Bool
  | .done _ => true
  | .failed _ => true
  | _ => false

/-- The producer loop has stopped pulling from the feed: it has left the
`async for` (normally or by `break`) or died. -/
def ProdPC.isStopped : ProdPC → Bool
  | .assignCursor _ => true
  | .done _ => true
  | .failed _ => true
  | _ => false

/-- The producer is about to run the assignment `self._cursor = feed.cursor`. -/
def ProdPC.isAssign : ProdPC → Bool
  | .assignCursor _ => true
  | _ => false

/-- The producer loop has completed (the assignment at line 50 ran). -/
def ProdPC.isDone : ProdPC → Bool
  | .done _ => true
  | _ => false

/-- The shared state of one pipeline run: the `_aborted` flag, the queue
contents (front first), the `_cursor` field, the producer task state, the
state of each worker task, and the identifiers printed by workers
(line 74) in order. -/
structure PState where
  aborted : Bool
  queue : List Item
  cursor : Option Nat
  prod : ProdPC
  workers : List WorkPC
  reported : List String

/-- The initial state: constructor fields from `__init__` plus all tasks
created and about to run. -/
def initState (ctx : Ctx) : PState :=
  { aborted := false
    queue := []
    cursor := ctx.cursor0
    prod := .fetching 0
    workers := List.replicate ctx.numWorkers .checking
    reported := [] }

/-- One interleaving step of the pipeline.  Producer steps follow
`_get_from_feed_and_enqueue`: the `async for` pulls item `i` (which can
yield it, end the feed, or raise), `await self._queue.put(file_obj)`
waits for space (`maxsize=num_workers`; `maxsize=0` would mean
unbounded), then `if self._aborted: break`, and after the loop
`self._cursor = feed.cursor`.  Worker steps follow
`_process_files_from_queue`: the `while not self._aborted or not
self._queue.empty()` test, `await self._queue.get()`, and processing of
the dequeued item (content fetch plus two file writes plus
`task_done`/`print`), which either succeeds or raises.  `sigAbort` is the
SIGINT handler calling `abort()` at any moment. -/
inductive Step (ctx : Ctx) : PState → PState → Prop where
  | sigAbort (s : PState) :
      Step ctx s { s with aborted := true }
  | fetchOk (s : PState) (i : Nat) (it : Item) :
      s.prod = .fetching i → ctx.feed.get? i = some it →
      ctx.failAt ≠ some i →
      Step ctx s { s with prod := .putting i }
  | fetchEnd (s : PState) (i : Nat) :
      s.prod = .fetching i → ctx.feed.get? i = none →
      Step ctx s { s with prod := .assignCursor i }
  | fetchFail (s : PState) (i : Nat) :
      s.prod = .fetching i → i < ctx.feed.length → ctx.failAt = some i →
      Step ctx s { s with prod := .failed i }
  | put (s : PState) (i : Nat) (it : Item) :
      s.prod = .putting i → ctx.feed.get? i = some it →
      (ctx.numWorkers = 0 ∨ s.queue.length < ctx.numWorkers) →
      Step ctx s { s with queue := s.queue ++ [it], prod := .checking i }
  | checkGo (s : PState) (i : Nat) :
      s.prod = .checking i → s.aborted = false →
      Step ctx s { s with prod := .fetching (i + 1) }
  | checkStop (s : PState) (i : Nat) :
      s.prod = .checking i → s.aborted = true →
      Step ctx s { s with prod := .assignCursor (i + 1) }
  | assign (s : PState) (y : Nat) :
      s.prod = .assignCursor y →
      Step ctx s { s with cursor := ctx.feedCursor y, prod := .done y }
  | wExit (s : PState) (w : Nat) :
      s.workers.get? w = some .checking → s.aborted = true → s.queue = [] →
      Step ctx s { s with workers := s.workers.set w .done }
  | wGo (s : PState) (w : Nat) :
      s.workers.get? w = some .checking →
      (s.aborted = false ∨ s.queue ≠ []) →
      Step ctx s { s with workers := s.workers.set w .getting }
  | wGet (s : PState) (w : Nat) (it : Item) (rest : List Item) :
      s.workers.get? w = some .getting → s.queue = it :: rest →
      Step ctx s { s with queue := rest,
                          workers := s.workers.set w (.processing it) }
  | wProcOk (s : PState) (w : Nat) (it : Item) :
      s.workers.get? w = some (.processing it) → ctx.procOk it = true →
      Step ctx s { s with workers := s.workers.set w .checking,
                          reported := s.reported ++ [it.id] }
  | wProcFail (s : PState) (w : Nat) (it : Item) :
      s.workers.get? w = some (.processing it) → ctx.procOk it = false →
      Step ctx s { s with workers := s.workers.set w (.crashed it) }

/-- Zero or more pipeline steps. -/
inductive Reach (ctx : Ctx) : PState → PState → Prop where
  | refl (s : PState) : Reach ctx s s
  | tail {a b c : PState} : Reach ctx a b → Step ctx b c → Reach ctx a c

/-- A state of one run of `FeedReader.run()`. -/
def Reachable (ctx : Ctx) (s : PState) : Prop := Reach ctx (initState ctx) s

/-- The condition on which `run()` returns: line 102 gathers exactly
`self._worker_tasks`, so the event loop stops once every worker task has
exited (the producer task, created at line 87, is not in the gather). -/
def runReturns (s : PState) : Bool := s.workers.all WorkPC.isExited

/-! ### Concrete run scenarios

Explicit interleavings of the transition system, used to evaluate the
pipeline at concrete inputs. -/

/-- An item that the feed can yield. -/
def itemA : Item := { id := "a", url := "ua", attrs := [], pos := 5 }

/-- A second item. -/
def itemB : Item := { id := "b", url := "ub", attrs := [], pos := 6 }

/-- An item whose content fetch will be made to fail. -/
def itemC : Item := { id := "c", url := "uc", attrs := [], pos := 7 }

/-- A run with one worker, a one-item feed, and no failures. -/
def ctx1 : Ctx :=
  { feed := [itemA], failAt := none, procOk := fun _ => true
    numWorkers := 1, cursor0 := none }

/-- A run with an empty feed, starting from cursor 7. -/
def ctx0 : Ctx :=
  { feed := [], failAt := none, procOk := fun _ => true
    numWorkers := 1, cursor0 := some 7 }

/-- A run in which the producer's remote fetch of item 0 raises. -/
def ctx2 : Ctx :=
  { feed := [itemA], failAt := some 0, procOk := fun _ => true
    numWorkers := 1, cursor0 := none }

/-- A run in which the worker's content fetch or write for any item raises. -/
def ctx3 : Ctx :=
  { feed := [itemC], failAt := none, procOk := fun _ => false
    numWorkers := 1, cursor0 := none }

/-- A two-item feed whose first item fails in the worker. -/
def ctx4 : Ctx :=
  { feed := [itemC, itemB], failAt := none, procOk := fun _ => false
    numWorkers := 1, cursor0 := none }

/-- ctx1 trace: producer fetched and enqueued `itemA` and is pulling item 1;
then SIGINT; the worker drains `itemA` and exits while the producer is
still inside its second fetch. -/
def sA1 : PState :=
  { aborted := false, queue := [], cursor := none, prod := .putting 0
    workers := [.checking], reported := [] }

def sA2 : PState :=
  { aborted := false, queue := [itemA], cursor := none, prod := .checking 0
    workers := [.checking], reported := [] }

def sA3 : PState :=
  { aborted := false, queue := [itemA], cursor := none, prod := .fetching 1
    workers := [.checking], reported := [] }

def sA4 : PState :=
  { aborted := true, queue := [itemA], cursor := none, prod := .fetching 1
    workers := [.checking], reported := [] }

def sA5 : PState :=
  { aborted := true, queue := [itemA], cursor := none, prod := .fetching 1
    workers := [.getting], reported := [] }

def sA6 : PState :=
  { aborted := true, queue := [], cursor := none, prod := .fetching 1
    workers := [.processing itemA], reported := [] }

def sA7 : PState :=
  { aborted := true, queue := [], cursor := none, prod := .fetching 1
    workers := [.checking], reported := ["a"] }

def sA8 : PState :=
  { aborted := true, queue := [], cursor := none, prod := .fetching 1
    workers := [.done], reported := ["a"] }

/-- ctx0 trace: the feed is empty, the producer completes immediately. -/
def sE1 : PState :=
  { aborted := false, queue := [], cursor := some 7, prod := .assignCursor 0
    workers := [.checking], reported := [] }

def sE2 : PState :=
  { aborted := false, queue := [], cursor := some 7, prod := .done 0
    workers := [.checking], reported := [] }

/-- ctx2 trace: the worker blocks on the empty queue, then the producer's
fetch raises; the abort flag is never set. -/
def sB1 : PState :=
  { aborted := false, queue := [], cursor := none, prod := .fetching 0
    workers := [.getting], reported := [] }

def sB2 : PState :=
  { aborted := false, queue := [], cursor := none, prod := .failed 0
    workers := [.getting], reported := [] }

/-- ctx3 trace: the worker dequeues `itemC`, its processing raises, and the
worker task dies without reporting anything. -/
def sC1 : PState :=
  { aborted := false, queue := [], cursor := none, prod := .putting 0
    workers := [.checking], reported := [] }

def sC2 : PState :=
  { aborted := false, queue := [itemC], cursor := none, prod := .checking 0
    workers := [.checking], reported := [] }

def sC3 : PState :=
  { aborted := false, queue := [itemC], cursor := none, prod := .fetching 1
    workers := [.checking], reported := [] }

def sC4 : PState :=
  { aborted := false, queue := [itemC], cursor := none, prod := .fetching 1
    workers := [.getting], reported := [] }

def sC5 : PState :=
  { aborted := false, queue := [], cursor := none, prod := .fetching 1
    workers := [.processing itemC], reported := [] }

def sC6 : PState :=
  { aborted := false, queue := [], cursor := none, prod := .fetching 1
    workers := [.crashed itemC], reported := [] }

/-- ctx4 trace: the worker crashes on `itemC` while `itemB` is already
queued. -/
def sD1 : PState :=
  { aborted := false, queue := [], cursor := none, prod := .putting 0
    workers := [.checking], reported := [] }

def sD2 : PState :=
  { aborted := false, queue := [itemC], cursor := none, prod := .checking 0
    workers := [.checking], reported := [] }

def sD3 : PState :=
  { aborted := false, queue := [itemC], cursor := none, prod := .fetching 1
    workers := [.checking], reported := [] }

def sD4 : PState :=
  { aborted := false, queue := [itemC], cursor := none, prod := .putting 1
    workers := [.checking], reported := [] }

def sD5 : PState :=
  { aborted := false, queue := [itemC], cursor := none, prod := .putting 1
    workers := [.getting], reported := [] }

def sD6 : PState :=
  { aborted := false, queue := [], cursor := none, prod := .putting 1
    workers := [.processing itemC], reported := [] }

def sD7 : PState :=
  { aborted := false, queue := [itemB], cursor := none, prod := .checking 1
    workers := [.processing itemC], reported := [] }

def sD8 : PState :=
  { aborted := false, queue := [itemB], cursor := none, prod := .checking 1
    workers := [.crashed itemC], reported := [] }

/-- ctx1 trace with the abort flag raised before the producer ever runs. -/
def sP1 : PState :=
  { aborted := true, queue := [], cursor := none, prod := .fetching 0
    workers := [.checking], reported := [] }

def sP2 : PState :=
  { aborted := true, queue := [], cursor := none, prod := .putting 0
    workers := [.checking], reported := [] }

def sP3 : PState :=
  { aborted := true, queue := [itemA], cursor := none, prod := .checking 0
    workers := [.checking], reported := [] }

/-- An item with a nonempty attribute mapping, for evaluating the
metadata artifact. -/
def itemW : Item :=
  { id := "w", url := "uw"
    attrs := [("sha256", .str "w"), ("size", .num 3),
              ("tags", .arr [.str "x", .null, .bool true])]
    pos := 9 }

def sP4 : PState :=
  { aborted := true, queue := [itemA], cursor := none, prod := .assignCursor 1
    workers := [.checking], reported := [] }

theorem string_mk_data (s : String) : String.mk s.data = s := rfl

theorem parseDigitsAux_stop (cs : List Char) (acc : Nat) (h : headNonDigit cs) :
    parseDigitsAux cs acc = (acc, cs) := by
  cases cs with
  | nil => rfl
  | cons c t =>
    have hc : charDigitVal c = none := h
    simp [parseDigitsAux, hc]

theorem charDigitVal_digitChar (d : Nat) (h : d < 10) :
    charDigitVal (digitChar d) = some d := by
  interval_cases d <;> rfl

theorem parseDigitsAux_natChars (n : Nat) : ∀ rest acc,
    parseDigitsAux (natChars n ++ rest) acc
      = parseDigitsAux rest (acc * tenPow n + n) := by
  induction n using Nat.strong_induction_on with
  | _ n ih =>
    intro rest acc
    by_cases h : n < 10
    · rw [natChars, dif_pos h, tenPow, dif_pos h]
      simp [parseDigitsAux, charDigitVal_digitChar n h]
    · rw [natChars, dif_neg h, tenPow, dif_neg h, List.append_assoc,
        ih (n / 10) (Nat.div_lt_self (by omega) (by omega))]
      simp only [List.singleton_append, parseDigitsAux,
        charDigitVal_digitChar (n % 10) (by omega)]
      congr 1
      have h2 : acc * (10 * tenPow (n / 10)) = acc * tenPow (n / 10) * 10 := by
        ring
      rw [h2]
      generalize acc * tenPow (n / 10) = K
      omega

theorem natChars_shape (n : Nat) :
    ∃ d t, natChars n = digitChar d :: t ∧ d < 10 := by
  induction n using Nat.strong_induction_on with
  | _ n ih =>
    by_cases h : n < 10
    · exact ⟨n, [], by rw [natChars, dif_pos h], h⟩
    · obtain ⟨d, t, ht, hd⟩ := ih (n / 10) (Nat.div_lt_self (by omega) (by omega))
      exact ⟨d, t ++ [digitChar (n % 10)], by rw [natChars, dif_neg h, ht]; rfl, hd⟩

theorem jsize_pos (v : JValue) : 1 ≤ jsize v := by
  cases v with
  | arr xs => cases xs <;> simp [jsize]
  | obj kvs => cases kvs <;> simp [jsize]
  | _ => simp [jsize]

theorem jsizeL_pos (x : JValue) (xs : List JValue) : 1 ≤ jsizeL x xs := by
  cases xs <;> simp [jsizeL]

theorem jsizeO_pos (kv : String × JValue) (kvs : List (String × JValue)) :
    1 ≤ jsizeO kv kvs := by
  obtain ⟨k, v⟩ := kv
  cases kvs <;> simp [jsizeO]

theorem parseStrBody_esc (s : List Char) : ∀ rest,
    parseStrBody (escString s ++ '"' :: rest) = some (s, rest) := by
  induction s with
  | nil => intro rest; simp [escString, parseStrBody]
  | cons c t ih =>
    intro rest
    show parseStrBody ((escChar c ++ escString t) ++ '"' :: rest) = _
    rw [List.append_assoc]
    by_cases h1 : c = '"'
    · rw [escChar, if_pos h1]
      simp [parseStrBody, parseStrEsc, unescC, ih rest, h1]
    · rw [escChar, if_neg h1]
      by_cases h2 : c = '\\'
      · rw [if_pos h2]
        simp [parseStrBody, parseStrEsc, unescC, ih rest, h2]
      · rw [if_neg h2]
        by_cases h3 : c = '\n'
        · rw [if_pos h3]
          simp [parseStrBody, parseStrEsc, unescC, ih rest, h3]
        · rw [if_neg h3]
          by_cases h4 : c = '\t'
          · rw [if_pos h4]
            simp [parseStrBody, parseStrEsc, unescC, ih rest, h4]
          · rw [if_neg h4]
            by_cases h5 : c = '\r'
            · rw [if_pos h5]
              simp [parseStrBody, parseStrEsc, unescC, ih rest, h5]
            · rw [if_neg h5]
              simp [parseStrBody, ih rest, h1, h2]

theorem natChars_ne_nil (n : Nat) : natChars n ≠ [] := by
  obtain ⟨d, t, h, _⟩ := natChars_shape n
  simp [h]

mutual

theorem jsize_le_len (v : JValue) : jsize v ≤ (dumpsL v).length := by
  cases v with
  | null => simp [jsize, dumpsL]
  | bool b => cases b <;> simp [jsize, dumpsL]
  | num n =>
    have h : intChars n ≠ [] := by
      rw [intChars]
      split <;> simp [natChars_ne_nil]
    have : 1 ≤ (intChars n).length := by
      cases hc : intChars n with
      | nil => exact absurd hc h
      | cons a t => simp
    simpa [jsize, dumpsL] using this
  | str s => simp [jsize, dumpsL]
  | arr xs =>
    cases xs with
    | nil => simp [jsize, dumpsL]
    | cons x t =>
      have := jsizeL_le_len x t
      simp only [jsize, dumpsL, List.length_cons]
      omega
  | obj kvs =>
    cases kvs with
    | nil => simp [jsize, dumpsL]
    | cons kv t =>
      have := jsizeO_le_len kv t
      simp only [jsize, dumpsL, List.length_cons]
      omega
termination_by sizeOf v
decreasing_by all_goals (simp_wf; try omega)

theorem jsizeL_le_len (x : JValue) (xs : List JValue) :
    jsizeL x xs ≤ (arrItemsL x xs).length := by
  cases xs with
  | nil =>
    have := jsize_le_len x
    simp only [jsizeL, arrItemsL, List.length_append, List.length_cons,
      List.length_nil]
    omega
  | cons y ys =>
    have h1 := jsize_le_len x
    have h2 := jsizeL_le_len y ys
    simp only [jsizeL, arrItemsL, List.length_append, List.length_cons,
      List.length_nil]
    omega
termination_by sizeOf x + sizeOf xs
decreasing_by all_goals (simp_wf; try omega)

theorem jsizeO_le_len (kv : String × JValue) (kvs : List (String × JValue)) :
    jsizeO kv kvs ≤ (objItemsL kv kvs).length := by
  obtain ⟨k, v⟩ := kv
  cases kvs with
  | nil =>
    have := jsize_le_len v
    simp only [jsizeO, objItemsL, keyChars, List.length_append,
      List.length_cons, List.length_nil]
    omega
  | cons kv2 kvs2 =>
    have h1 := jsize_le_len v
    have h2 := jsizeO_le_len kv2 kvs2
    simp only [jsizeO, objItemsL, keyChars, List.length_append,
      List.length_cons, List.length_nil]
    omega
termination_by sizeOf kv + sizeOf kvs
decreasing_by all_goals (simp_wf; try omega)

end
/-- The first character of a serialized value is never a closing bracket
or closing brace (used to pick the right branch after `[` and `{`). -/
theorem dumpsL_head (v : JValue) :
    ∃ c t, dumpsL v = c :: t ∧ c ≠ ']' ∧ c ≠ '}' := by
  cases v with
  | null => exact ⟨'n', ['u', 'l', 'l'], by simp [dumpsL], by decide, by decide⟩
  | bool b =>
    cases b with
    | false =>
      exact ⟨'f', ['a', 'l', 's', 'e'], by simp [dumpsL], by decide, by decide⟩
    | true =>
      exact ⟨'t', ['r', 'u', 'e'], by simp [dumpsL], by decide, by decide⟩
  | num n =>
    by_cases h : n < 0
    · exact ⟨'-', natChars n.natAbs,
        by simp [dumpsL, intChars, if_pos h], by decide, by decide⟩
    · obtain ⟨d, t, ht, hd⟩ := natChars_shape n.natAbs
      refine ⟨digitChar d, t,
        by simp only [dumpsL, intChars, if_neg h]; exact ht, ?_, ?_⟩
      · interval_cases d <;> decide
      · interval_cases d <;> decide
  | str s =>
    exact ⟨'"', escString s.data ++ ['"'], by simp [dumpsL], by decide, by decide⟩
  | arr xs =>
    cases xs with
    | nil => exact ⟨'[', [']'], by simp [dumpsL], by decide, by decide⟩
    | cons x t =>
      exact ⟨'[', arrItemsL x t, by simp [dumpsL], by decide, by decide⟩
  | obj kvs =>
    cases kvs with
    | nil => exact ⟨'{', ['}'], by simp [dumpsL], by decide, by decide⟩
    | cons kv t =>
      exact ⟨'{', objItemsL kv t, by simp [dumpsL], by decide, by decide⟩

theorem parseVal_digit (f : Nat) (c : Char) (cs : List Char) (d : Nat)
    (h : charDigitVal c = some d) :
    parseVal (f + 1) (c :: cs)
      = some (.num ((parseDigitsAux cs d).1 : Int), (parseDigitsAux cs d).2) := by
  simp [parseVal, h]

theorem parseVal_minus (f : Nat) (cs : List Char) :
    parseVal (f + 1) ('-' :: cs) = parseNeg cs := by
  simp [parseVal, charDigitVal]

theorem parseVal_quote (f : Nat) (cs : List Char) :
    parseVal (f + 1) ('"' :: cs)
      = match parseStrBody cs with
        | some (content, rest) => some (.str (String.mk content), rest)
        | none => none := by
  simp [parseVal, charDigitVal]

theorem parseVal_litn (f : Nat) (cs : List Char) :
    parseVal (f + 1) ('n' :: cs) = expectNull cs := by
  simp [parseVal, charDigitVal]

theorem parseVal_litt (f : Nat) (cs : List Char) :
    parseVal (f + 1) ('t' :: cs) = expectTrue cs := by
  simp [parseVal, charDigitVal]

theorem parseVal_litf (f : Nat) (cs : List Char) :
    parseVal (f + 1) ('f' :: cs) = expectFalse cs := by
  simp [parseVal, charDigitVal]

theorem parseVal_bracket (f : Nat) (cs : List Char) :
    parseVal (f + 1) ('[' :: cs) = parseArrStart f cs := by
  simp [parseVal, charDigitVal]

theorem parseVal_brace (f : Nat) (cs : List Char) :
    parseVal (f + 1) ('{' :: cs) = parseObjStart f cs := by
  simp [parseVal, charDigitVal]

theorem headNonDigit_cons (c : Char) (r : List Char)
    (h : charDigitVal c = none) : headNonDigit (c :: r) := h

theorem parseDigits_tail (n d : Nat) (t rest : List Char)
    (hs : natChars n = digitChar d :: t) (hd : d < 10) (h : headNonDigit rest) :
    parseDigitsAux (t ++ rest) d = (n, rest) := by
  have h1 : parseDigitsAux (natChars n ++ rest) 0 = (n, rest) := by
    rw [parseDigitsAux_natChars, parseDigitsAux_stop _ _ h]
    simp
  rw [hs] at h1
  simpa [parseDigitsAux, charDigitVal_digitChar d hd] using h1

theorem parse_dumps_master : ∀ f : Nat,
    (∀ v rest, jsize v ≤ f → headNonDigit rest →
       parseVal f (dumpsL v ++ rest) = some (v, rest)) ∧
    (∀ x xs rest, jsizeL x xs ≤ f → headNonDigit rest →
       parseArrItems f (arrItemsL x xs ++ rest) = some (x :: xs, rest)) ∧
    (∀ kv kvs rest, jsizeO kv kvs ≤ f → headNonDigit rest →
       parseObjItems f (objItemsL kv kvs ++ rest) = some (kv :: kvs, rest)) := by
  intro f
  induction f with
  | zero =>
    refine ⟨?_, ?_, ?_⟩
    · intro v rest hsz _
      exact absurd hsz (by have := jsize_pos v; omega)
    · intro x xs rest hsz _
      exact absurd hsz (by have := jsizeL_pos x xs; omega)
    · intro kv kvs rest hsz _
      exact absurd hsz (by have := jsizeO_pos kv kvs; omega)
  | succ f ih =>
    obtain ⟨ihV, ihA, ihO⟩ := ih
    refine ⟨?_, ?_, ?_⟩
    · intro v rest hsz hrest
      cases v with
      | null =>
        have heq : dumpsL .null ++ rest = 'n' :: 'u' :: 'l' :: 'l' :: rest := by
          simp [dumpsL]
        rw [heq, parseVal_litn]
        simp [expectNull]
      | bool b =>
        cases b with
        | true =>
          have heq : dumpsL (.bool true) ++ rest
              = 't' :: 'r' :: 'u' :: 'e' :: rest := by
            simp [dumpsL]
          rw [heq, parseVal_litt]
          simp [expectTrue]
        | false =>
          have heq : dumpsL (.bool false) ++ rest
              = 'f' :: 'a' :: 'l' :: 's' :: 'e' :: rest := by
            simp [dumpsL]
          rw [heq, parseVal_litf]
          simp [expectFalse]
      | num n =>
        by_cases hneg : n < 0
        · have heq : dumpsL (.num n) ++ rest
              = '-' :: (natChars n.natAbs ++ rest) := by
            simp [dumpsL, intChars, if_pos hneg]
          rw [heq, parseVal_minus]
          obtain ⟨d, t, hs, hd⟩ := natChars_shape n.natAbs
          rw [hs]
          simp only [List.cons_append]
          rw [parseNeg, charDigitVal_digitChar d hd]
          simp only []
          rw [parseDigits_tail n.natAbs d t rest hs hd hrest]
          have hval : -((n.natAbs : Int)) = n := by omega
          show some (JValue.num (-((n.natAbs : Int))), rest)
              = some (JValue.num n, rest)
          rw [hval]
        · have heq : dumpsL (.num n) ++ rest = natChars n.natAbs ++ rest := by
            simp [dumpsL, intChars, if_neg hneg]
          obtain ⟨d, t, hs, hd⟩ := natChars_shape n.natAbs
          rw [heq, hs]
          simp only [List.cons_append]
          rw [parseVal_digit f _ _ d (charDigitVal_digitChar d hd)]
          rw [parseDigits_tail n.natAbs d t rest hs hd hrest]
          have hval : ((n.natAbs : Int)) = n := by omega
          show some (JValue.num ((n.natAbs : Int)), rest)
              = some (JValue.num n, rest)
          rw [hval]
      | str s =>
        have heq : dumpsL (.str s) ++ rest
            = '"' :: (escString s.data ++ '"' :: rest) := by
          simp [dumpsL]
        rw [heq, parseVal_quote, parseStrBody_esc]
      | arr xs =>
        cases xs with
        | nil =>
          have heq : dumpsL (.arr []) ++ rest = '[' :: (']' :: rest) := by
            simp [dumpsL]
          rw [heq, parseVal_bracket, parseArrStart]
          simp
        | cons x t =>
          have hsz2 : jsizeL x t ≤ f := by
            simp only [jsize] at hsz; omega
          have heq : dumpsL (.arr (x :: t)) ++ rest
              = '[' :: (arrItemsL x t ++ rest) := by
            simp [dumpsL]
          rw [heq, parseVal_bracket]
          obtain ⟨c0, t0, hx, hne1, hne2⟩ := dumpsL_head x
          have hcons : ∃ S, arrItemsL x t ++ rest = c0 :: S := by
            cases t with
            | nil => exact ⟨t0 ++ (']' :: rest), by simp [arrItemsL, hx]⟩
            | cons y ys =>
              exact ⟨t0 ++ (',' :: ' ' :: (arrItemsL y ys ++ rest)),
                by simp [arrItemsL, hx]⟩
          obtain ⟨S, hS⟩ := hcons
          rw [hS, parseArrStart, if_neg hne1, ← hS,
            ihA x t rest hsz2 hrest]
      | obj kvs =>
        cases kvs with
        | nil =>
          have heq : dumpsL (.obj []) ++ rest = '{' :: ('}' :: rest) := by
            simp [dumpsL]
          rw [heq, parseVal_brace, parseObjStart]
          simp
        | cons kv t =>
          have hsz2 : jsizeO kv t ≤ f := by
            simp only [jsize] at hsz; omega
          have heq : dumpsL (.obj (kv :: t)) ++ rest
              = '{' :: (objItemsL kv t ++ rest) := by
            simp [dumpsL]
          rw [heq, parseVal_brace]
          have hcons : ∃ S, objItemsL kv t ++ rest = '"' :: S := by
            obtain ⟨k, v⟩ := kv
            cases t with
            | nil =>
              exact ⟨escString k.data ++ ['"', ':', ' ']
                  ++ (dumpsL v ++ ('}' :: rest)),
                by simp [objItemsL, keyChars]⟩
            | cons kv2 kvs2 =>
              exact ⟨escString k.data ++ ['"', ':', ' ']
                  ++ (dumpsL v ++ (',' :: ' ' :: (objItemsL kv2 kvs2 ++ rest))),
                by simp [objItemsL, keyChars]⟩
          obtain ⟨S, hS⟩ := hcons
          rw [hS, parseObjStart, if_neg (by decide : ¬('"' = '}')), ← hS,
            ihO kv t rest hsz2 hrest]
    · intro x xs rest hsz hrest
      cases xs with
      | nil =>
        have hszx : jsize x ≤ f := by simp only [jsizeL] at hsz; omega
        have heq : arrItemsL x [] ++ rest = dumpsL x ++ (']' :: rest) := by
          simp [arrItemsL]
        rw [parseArrItems, heq,
          ihV x (']' :: rest) hszx (headNonDigit_cons _ _ (by decide))]
        simp
      | cons y ys =>
        have hszs : jsize x ≤ f ∧ jsizeL y ys ≤ f := by
          simp only [jsizeL] at hsz; omega
        have heq : arrItemsL x (y :: ys) ++ rest
            = dumpsL x ++ (',' :: ' ' :: (arrItemsL y ys ++ rest)) := by
          simp [arrItemsL]
        rw [parseArrItems, heq,
          ihV x _ hszs.1 (headNonDigit_cons _ _ (by decide))]
        simp only []
        rw [ihA y ys rest hszs.2 hrest]
    · intro kv kvs rest hsz hrest
      obtain ⟨k, v⟩ := kv
      cases kvs with
      | nil =>
        have hszv : jsize v ≤ f := by simp only [jsizeO] at hsz; omega
        have heq : objItemsL (k, v) [] ++ rest
            = '"' :: (escString k.data
                ++ '"' :: (':' :: ' ' :: (dumpsL v ++ ('}' :: rest)))) := by
          simp [objItemsL, keyChars]
        rw [heq, parseObjItems]
        rw [if_pos rfl, parseStrBody_esc]
        simp only []
        rw [ihV v _ hszv (headNonDigit_cons _ _ (by decide))]
        simp [string_mk_data]
      | cons kv2 kvs2 =>
        have hszs : jsize v ≤ f ∧ jsizeO kv2 kvs2 ≤ f := by
          simp only [jsizeO] at hsz; omega
        have heq : objItemsL (k, v) (kv2 :: kvs2) ++ rest
            = '"' :: (escString k.data
                ++ '"' :: (':' :: ' '
                  :: (dumpsL v ++ (',' :: ' ' :: (objItemsL kv2 kvs2 ++ rest))))) := by
          simp [objItemsL, keyChars]
        rw [heq, parseObjItems]
        rw [if_pos rfl, parseStrBody_esc]
        simp only []
        rw [ihV v _ hszs.1 (headNonDigit_cons _ _ (by decide))]
        simp only []
        rw [ihO kv2 kvs2 rest hszs.2 hrest]

/-- Round-trip: parsing the serialized form of a JSON value yields the
value back. -/
theorem loads_dumps (v : JValue) : loads (dumps v) = some v := by
  have h2 := (parse_dumps_master (dumpsL v).length).1 v [] (jsize_le_len v)
    trivial
  rw [List.append_nil] at h2
  have hd : (dumps v).data = dumpsL v := rfl
  rw [loads, hd, h2]

theorem osPathJoin_rel (dir p : String) (h : ¬ startsWithSlash p) :
    osPathJoin dir p = dirSlash dir ++ p := by
  rw [osPathJoin, if_neg h, dirSlash]
  by_cases hd : dir = "" ∨ endsWithSlash dir
  · rw [if_pos hd, if_pos hd]
  · rw [if_neg hd, if_neg hd]

theorem string_append_cancel (a b c : String) (h : a ++ b = a ++ c) : b = c := by
  have hd : a.data ++ b.data = a.data ++ c.data := by
    have := congrArg String.data h
    simpa using this
  have hbc : b.data = c.data := List.append_cancel_left hd
  exact congrArg String.mk hbc

theorem string_ne_self_append_json (x : String) : x ≠ x ++ ".json" := by
  intro h
  have := congrArg (fun s => s.data.length) h
  simp at this

theorem setGetSame {α : Type} (l : List α) (n : Nat) (a : α)
    (h : n < l.length) : (l.set n a)[n]? = some a := by
  induction l generalizing n with
  | nil => simp at h
  | cons x t ih =>
    cases n with
    | zero => simp
    | succ m => simpa using ih m (by simpa using h)

theorem setGetOther {α : Type} (l : List α) (n m : Nat) (a : α)
    (h : m ≠ n) : (l.set n a)[m]? = l[m]? := by
  induction l generalizing n m with
  | nil => simp
  | cons x t ih =>
    cases n with
    | zero =>
      cases m with
      | zero => exact absurd rfl h
      | succ k => simp
    | succ n2 =>
      cases m with
      | zero => simp
      | succ k => simpa using ih n2 k (by omega)

theorem getSomeLt {α : Type} (l : List α) (n : Nat) (a : α)
    (h : l[n]? = some a) : n < l.length := by
  induction l generalizing n with
  | nil => simp at h
  | cons x t ih =>
    cases n with
    | zero => simp
    | succ m =>
      have := ih m (by simpa using h)
      simpa using this

/-- Invariants: a predicate that holds initially and is preserved by every
step holds at every reachable state. -/
theorem Reach.preserve {ctx : Ctx} {s0 s : PState} (P : PState → Prop)
    (h : Reach ctx s0 s) (h0 : P s0)
    (pres : ∀ a b, P a → Step ctx a b → P b) : P s := by
  induction h with
  | refl => exact h0
  | tail _ hs ih => exact pres _ _ ih hs

/-- The `_aborted` flag is never cleared: `abort()` only sets it. -/
theorem aborted_persists {ctx : Ctx} {a b : PState} (h : Step ctx a b)
    (ha : a.aborted = true) : b.aborted = true := by
  cases h <;> simp <;> exact ha

/-- No step resurrects a crashed worker: an unhandled exception inside
`_process_files_from_queue` is terminal for that task. -/
theorem crashed_persists {ctx : Ctx} {a b : PState} (h : Step ctx a b)
    (w : Nat) (it : Item) (ha : a.workers.get? w = some (.crashed it)) :
    b.workers.get? w = some (.crashed it) := by
  cases h with
  | wExit w2 h1 h2 h3 =>
    by_cases hw : w = w2
    · subst hw; rw [ha] at h1; simp at h1
    · simpa [setGetOther _ _ _ _ hw] using ha
  | wGo w2 h1 h2 =>
    by_cases hw : w = w2
    · subst hw; rw [ha] at h1; simp at h1
    · simpa [setGetOther _ _ _ _ hw] using ha
  | wGet w2 it2 rest h1 h2 =>
    by_cases hw : w = w2
    · subst hw; rw [ha] at h1; simp at h1
    · simpa [setGetOther _ _ _ _ hw] using ha
  | wProcOk w2 it2 h1 h2 =>
    by_cases hw : w = w2
    · subst hw; rw [ha] at h1; simp at h1
    · simpa [setGetOther _ _ _ _ hw] using ha
  | wProcFail w2 it2 h1 h2 =>
    by_cases hw : w = w2
    · subst hw; rw [ha] at h1; simp at h1
    · simpa [setGetOther _ _ _ _ hw] using ha
  | _ => simpa using ha

theorem reachA2 : Reachable ctx1 sA2 :=
  Reach.tail
    (Reach.tail (Reach.refl _)
      (Step.fetchOk (initState ctx1) 0 itemA rfl rfl (by decide)))
    (Step.put sA1 0 itemA rfl rfl (Or.inr (by decide)))

theorem reachA8 : Reachable ctx1 sA8 :=
  Reach.tail
    (Reach.tail
      (Reach.tail
        (Reach.tail
          (Reach.tail
            (Reach.tail reachA2 (Step.checkGo sA2 0 rfl rfl))
            (Step.sigAbort sA3))
          (Step.wGo sA4 0 rfl (Or.inr (by simp [sA4]))))
        (Step.wGet sA5 0 itemA [] rfl rfl))
      (Step.wProcOk sA6 0 itemA rfl rfl))
    (Step.wExit sA7 0 rfl rfl rfl)

theorem reachE2 : Reachable ctx0 sE2 :=
  Reach.tail
    (Reach.tail (Reach.refl _) (Step.fetchEnd (initState ctx0) 0 rfl rfl))
    (Step.assign sE1 0 rfl)

theorem reachB2 : Reachable ctx2 sB2 :=
  Reach.tail
    (Reach.tail (Reach.refl _)
      (Step.wGo (initState ctx2) 0 rfl (Or.inl rfl)))
    (Step.fetchFail sB1 0 rfl (by decide) rfl)

theorem reachC6 : Reachable ctx3 sC6 :=
  Reach.tail
    (Reach.tail
      (Reach.tail
        (Reach.tail
          (Reach.tail
            (Reach.tail (Reach.refl _)
              (Step.fetchOk (initState ctx3) 0 itemC rfl rfl (by decide)))
            (Step.put sC1 0 itemC rfl rfl (Or.inr (by decide))))
          (Step.checkGo sC2 0 rfl rfl))
        (Step.wGo sC3 0 rfl (Or.inl rfl)))
      (Step.wGet sC4 0 itemC [] rfl rfl))
    (Step.wProcFail sC5 0 itemC rfl rfl)

theorem reachD8 : Reachable ctx4 sD8 :=
  Reach.tail
    (Reach.tail
      (Reach.tail
        (Reach.tail
          (Reach.tail
            (Reach.tail
              (Reach.tail
                (Reach.tail (Reach.refl _)
                  (Step.fetchOk (initState ctx4) 0 itemC rfl rfl (by decide)))
                (Step.put sD1 0 itemC rfl rfl (Or.inr (by decide))))
              (Step.checkGo sD2 0 rfl rfl))
            (Step.fetchOk sD3 1 itemB rfl rfl (by decide)))
          (Step.wGo sD4 0 rfl (Or.inl rfl)))
        (Step.wGet sD5 0 itemC [] rfl rfl))
      (Step.put sD6 1 itemB rfl rfl (Or.inr (by decide))))
    (Step.wProcFail sD7 0 itemC rfl rfl)

theorem all_of_get? {α : Type} (l : List α) (p : α → Bool) (h : l.all p = true)
    (n : Nat) (a : α) (hn : l.get? n = some a) : p a = true := by
  induction l generalizing n with
  | nil => simp at hn
  | cons x t ih =>
    simp only [List.all_cons, Bool.and_eq_true] at h
    cases n with
    | zero =>
      have : x = a := by simpa using hn
      exact this ▸ h.1
    | succ m => exact ih h.2 m (by simpa using hn)

/-! ### The claims -/

/-- C7.  At every instant of every run with at least one worker, the
number of items in the queue is at most the configured capacity (which
`__init__` sets to `num_workers` via `asyncio.Queue(maxsize=num_workers)`):
`put` suspends the producer while the queue is full. -/
theorem queue_length_bounded (ctx : Ctx) (hN : 1 ≤ ctx.numWorkers)
    {s : PState} (h : Reachable ctx s) : s.queue.length ≤ ctx.numWorkers := by
  refine Reach.preserve (fun t => t.queue.length ≤ ctx.numWorkers) h
    (by simp [initState]) ?_
  intro a b ha hst
  cases hst
  case put i it h1 h2 h3 =>
    show (a.queue ++ [it]).length ≤ ctx.numWorkers
    rcases h3 with h3 | h3
    · omega
    · simp only [List.length_append, List.length_cons, List.length_nil]
      omega
  case wGet w it rest h1 h2 =>
    show rest.length ≤ ctx.numWorkers
    rw [h2] at ha
    simp only [List.length_cons] at ha
    omega
  all_goals exact ha

/-- C7 witness: in the one-worker run `ctx1`, the reachable state `sA2`
keeps the queue within the capacity. -/
theorem queue_length_bounded_witness : sA2.queue.length ≤ ctx1.numWorkers :=
  queue_length_bounded ctx1 (by decide) reachA2

/-- C10.  The `_cursor` field is written by no operation except the
producer's end-of-loop assignment (line 50): every step taken while the
producer is not at that assignment leaves the cursor unchanged, and in
every reachable state where the producer's loop has not completed the
cursor still holds the starting value given to the constructor. -/
theorem cursor_frame (ctx : Ctx) :
    (∀ s t : PState, Step ctx s t → s.prod.isAssign = false →
       t.cursor = s.cursor) ∧
    (∀ s : PState, Reachable ctx s → s.prod.isDone = false →
       s.cursor = ctx.cursor0) := by
  constructor
  · intro s t hst hna
    cases hst
    case assign y h1 => rw [h1] at hna; simp [ProdPC.isAssign] at hna
    all_goals rfl
  · intro s h
    refine Reach.preserve
      (fun t => t.prod.isDone = false → t.cursor = ctx.cursor0) h
      (fun _ => rfl) ?_
    intro a b ha hst
    cases hst
    case assign y h1 =>
      intro hb
      simp [ProdPC.isDone] at hb
    case fetchOk i it h1 h2 h3 =>
      intro _
      exact ha (by rw [h1]; rfl)
    case fetchEnd i h1 h2 =>
      intro _
      exact ha (by rw [h1]; rfl)
    case fetchFail i h1 h2 h3 =>
      intro _
      exact ha (by rw [h1]; rfl)
    case put i it h1 h2 h3 =>
      intro _
      exact ha (by rw [h1]; rfl)
    case checkGo i h1 h2 =>
      intro _
      exact ha (by rw [h1]; rfl)
    case checkStop i h1 h2 =>
      intro _
      exact ha (by rw [h1]; rfl)
    all_goals exact fun hb => ha hb

/-- C10 witness: the initial state of `ctx1` has an unfinished producer and
the constructor's cursor. -/
theorem cursor_frame_witness : (initState ctx1).cursor = ctx1.cursor0 :=
  (cursor_frame ctx1).2 (initState ctx1) (Reach.refl _) rfl

/-- C1 (amended).  In every reachable state whose producer loop has
completed after yielding `y` items, `cursor()` returns the feed position
of the last yielded item (the starting position when `y = 0`); reading it
then is just a field read, hence safe. -/
theorem cursor_eq_feedCursor_of_done (ctx : Ctx) {s : PState}
    (h : Reachable ctx s) (y : Nat) (hp : s.prod = .done y) :
    s.cursor = ctx.feedCursor y := by
  have key : ∀ z, s.prod = .done z → s.cursor = ctx.feedCursor z := by
    refine Reach.preserve
      (fun t => ∀ z, t.prod = .done z → t.cursor = ctx.feedCursor z) h ?_ ?_
    · intro z hz
      exact nomatch (show ProdPC.fetching 0 = ProdPC.done z from hz)
    · intro a b ha hst
      cases hst
      case assign y0 h1 =>
        intro z hz
        have hz2 : ProdPC.done y0 = ProdPC.done z := hz
        cases hz2
        rfl
      case fetchOk i it h1 h2 h3 =>
        intro z hz
        exact nomatch (show ProdPC.putting i = ProdPC.done z from hz)
      case fetchEnd i h1 h2 =>
        intro z hz
        exact nomatch (show ProdPC.assignCursor i = ProdPC.done z from hz)
      case fetchFail i h1 h2 h3 =>
        intro z hz
        exact nomatch (show ProdPC.failed i = ProdPC.done z from hz)
      case put i it h1 h2 h3 =>
        intro z hz
        exact nomatch (show ProdPC.checking i = ProdPC.done z from hz)
      case checkGo i h1 h2 =>
        intro z hz
        exact nomatch (show ProdPC.fetching (i + 1) = ProdPC.done z from hz)
      case checkStop i h1 h2 =>
        intro z hz
        exact nomatch (show ProdPC.assignCursor (i + 1) = ProdPC.done z from hz)
      all_goals exact fun z hz => ha z hz
  exact key y hp

/-- C1 witness: the empty-feed run `ctx0` reaches a state with the
producer done after 0 items, and the cursor is the starting position. -/
theorem cursor_eq_feedCursor_of_done_witness : sE2.cursor = ctx0.feedCursor 0 :=
  cursor_eq_feedCursor_of_done ctx0 reachE2 0 rfl

/-- C1 counterexample.  In run `ctx1` the state `sA8` is reachable: `run()`
has returned (all worker tasks exited), the only item `itemA` -- position
5 -- was yielded and fully processed (its id was printed), yet
`cursor()` still returns the starting position `none`, not position 5:
the producer task was still inside its next fetch when the workers
drained and exited, so line 50 never ran before `run()` returned. -/
theorem run_returns_with_stale_cursor :
    Reachable ctx1 sA8 ∧ runReturns sA8 = true ∧
    sA8.reported = [itemA.id] ∧ itemA.pos = 5 ∧
    sA8.cursor = ctx1.cursor0 ∧ sA8.cursor ≠ some itemA.pos ∧
    ctx1.feedCursor 1 = some itemA.pos :=
  ⟨reachA8, rfl, rfl, rfl, rfl, by simp [sA8, itemA], rfl⟩

/-- C2 (code evaluated at the failing input).  In run `ctx2` the producer's
remote fetch raises at item 0 while the worker waits on the empty queue:
the reachable state `sB2` has a dead producer, the abort flag still
clear, an empty queue, and the worker inside `await self._queue.get()` --
there is no `except` clause and `abort()` is never called, so the worker
is stranded and `run()` cannot return. -/
theorem producer_failure_leaves_abort_clear :
    Reachable ctx2 sB2 ∧ sB2.aborted = false ∧ sB2.prod = .failed 0 ∧
    sB2.queue = [] ∧ sB2.workers = [.getting] ∧ runReturns sB2 = false :=
  ⟨reachB2, rfl, rfl, rfl, rfl, rfl⟩

/-- From the stranded state of run `ctx2`, the only step the system can
still take is the external SIGINT handler: the producer is dead and the
lone worker is blocked on an empty queue. -/
theorem producer_failure_strands_workers :
    ∀ t, Step ctx2 sB2 t → t = { sB2 with aborted := true } := by
  intro t hst
  cases hst
  case sigAbort => rfl
  case fetchOk i it h1 h2 h3 => exact nomatch h1
  case fetchEnd i h1 h2 => exact nomatch h1
  case fetchFail i h1 h2 h3 => exact nomatch h1
  case put i it h1 h2 h3 => exact nomatch h1
  case checkGo i h1 h2 => exact nomatch h1
  case checkStop i h1 h2 => exact nomatch h1
  case assign y h1 => exact nomatch h1
  case wExit w h1 h2 h3 =>
    rcases w with _ | w
    · exact nomatch h1
    · rcases w with _ | w <;> exact nomatch h1
  case wGo w h1 h2 =>
    rcases w with _ | w
    · exact nomatch h1
    · rcases w with _ | w <;> exact nomatch h1
  case wGet w it rest h1 h2 => exact nomatch h2
  case wProcOk w it h1 h2 =>
    rcases w with _ | w
    · exact nomatch h1
    · rcases w with _ | w <;> exact nomatch h1
  case wProcFail w it h1 h2 =>
    rcases w with _ | w
    · exact nomatch h1
    · rcases w with _ | w <;> exact nomatch h1

/-- C3 (code evaluated at the failing input).  In run `ctx3` the worker's
content fetch for `itemC` raises: the reachable state `sC6` has the
worker task dead (`crashed`, an exited task) and nothing reported for the
item -- the exception propagates out of the `while` loop (there is no
`try`/`except` in `_process_files_from_queue`), terminating the worker
instead of being reported and recovered.  `runReturns sC6 = true` then
makes `asyncio.gather` re-raise inside `run()`, crashing the pipeline. -/
theorem worker_crash_on_item_failure :
    Reachable ctx3 sC6 ∧ sC6.workers = [.crashed itemC] ∧
    WorkPC.isExited (.crashed itemC) = true ∧ sC6.reported = [] ∧
    runReturns sC6 = true :=
  ⟨reachC6, rfl, rfl, rfl, rfl⟩

/-- C4 counterexample.  In run `ctx4` the state `sD8` is reachable: the
worker's loop has exited (killed by the unhandled per-item exception for
`itemC`) while `itemB` is still sitting in the queue -- so a worker can
exit its loop with the queue nonempty and without having observed the
abort-and-empty conjunction (the flag was never set). -/
theorem worker_crash_exits_with_nonempty_queue :
    Reachable ctx4 sD8 ∧ sD8.workers = [.crashed itemC] ∧
    WorkPC.isExited (.crashed itemC) = true ∧
    sD8.queue = [itemB] ∧ sD8.queue ≠ [] ∧ sD8.aborted = false :=
  ⟨reachD8, rfl, rfl, rfl, by simp [sD8], rfl⟩

/-- C5 counterexample.  In run `ctx1`, raise the abort flag before the
producer's first step: the producer still performs its first fetch and
enqueues `itemA` -- the flag is tested only after `queue.put` (line 48),
never before a fetch, so with the flag already set an item is fetched
and enqueued anyway. -/
theorem producer_enqueues_despite_prior_abort :
    Step ctx1 (initState ctx1) sP1 ∧ sP1.aborted = true ∧ sP1.queue = [] ∧
    Step ctx1 sP1 sP2 ∧ sP2.aborted = true ∧
    Step ctx1 sP2 sP3 ∧ sP3.aborted = true ∧ sP3.queue = [itemA] :=
  ⟨Step.sigAbort (initState ctx1), rfl, rfl,
   Step.fetchOk sP1 0 itemA rfl rfl (by decide), rfl,
   Step.put sP2 0 itemA rfl rfl (Or.inr (by decide)), rfl, rfl⟩

/-- C6 counterexample.  In run `ctx1` the state `sA8` is reachable:
`run()`'s gather condition holds (every worker task has exited) while
the producer task has not exited -- line 102 gathers only
`self._worker_tasks`, so `run()` returns although the producer is still
running. -/
theorem run_returns_before_producer_exit :
    Reachable ctx1 sA8 ∧ runReturns sA8 = true ∧
    sA8.prod = .fetching 1 ∧ sA8.prod.isExited = false :=
  ⟨reachA8, rfl, rfl, rfl⟩

/-- C8.  The metadata artifact written for an item (line 70:
`json.dumps(file_obj.to_dict())`), parsed back from its UTF-8 JSON
form, reproduces the item's attribute mapping exactly. -/
theorem metadata_roundtrip (it : Item) :
    loads (metadataJson it) = some (.obj it.attrs) :=
  loads_dumps (.obj it.attrs)

/-- C8 witness: the artifact of a concrete item parses back to its
attribute mapping. -/
theorem metadata_roundtrip_witness :
    loads (metadataJson itemW) = some (.obj itemW.attrs) :=
  metadata_roundtrip itemW

/-- C6 (amended).  Once the gather condition of `run()` holds -- every
worker task exited -- no further step changes any worker or reports
anything: the workers `run()` waited for are finished for good.  (The
producer task is not part of the gather and may still step.) -/
theorem run_returns_freezes_workers (ctx : Ctx) {s t : PState}
    (hret : runReturns s = true) (hst : Step ctx s t) :
    t.workers = s.workers ∧ t.reported = s.reported ∧ runReturns t = true := by
  cases hst
  case wExit w h1 h2 h3 =>
    have := all_of_get? s.workers WorkPC.isExited hret w _ h1
    simp [WorkPC.isExited] at this
  case wGo w h1 h2 =>
    have := all_of_get? s.workers WorkPC.isExited hret w _ h1
    simp [WorkPC.isExited] at this
  case wGet w it rest h1 h2 =>
    have := all_of_get? s.workers WorkPC.isExited hret w _ h1
    simp [WorkPC.isExited] at this
  case wProcOk w it h1 h2 =>
    have := all_of_get? s.workers WorkPC.isExited hret w _ h1
    simp [WorkPC.isExited] at this
  case wProcFail w it h1 h2 =>
    have := all_of_get? s.workers WorkPC.isExited hret w _ h1
    simp [WorkPC.isExited] at this
  all_goals exact ⟨rfl, rfl, hret⟩

/-- C6 witness: at `sA8` the gather condition holds, and a further step
(the SIGINT handler) leaves workers and reports untouched. -/
theorem run_returns_freezes_workers_witness :
    ({ sA8 with aborted := true } : PState).workers = sA8.workers ∧
    ({ sA8 with aborted := true } : PState).reported = sA8.reported ∧
    runReturns { sA8 with aborted := true } = true :=
  run_returns_freezes_workers ctx1 rfl (Step.sigAbort sA8)

/-- C5 (amended).  The producer tests the abort flag right after each
enqueue (line 48), hence before requesting the following item, and on
observing it set it breaks out of the loop without touching the queue;
every entry into a new fetch comes from a check that observed the flag
clear; and once the producer has stopped (loop left or task dead) the
queue never grows again.  The first item of a run, however, is requested
without any prior check (see the counterexample). -/
theorem producer_abort_discipline (ctx : Ctx) {s t : PState}
    (hst : Step ctx s t) :
    (∀ i, s.prod = .checking i → s.aborted = true → t.prod ≠ s.prod →
       t.prod = .assignCursor (i + 1) ∧ t.queue = s.queue) ∧
    (∀ i, t.prod = .fetching (i + 1) → s.prod ≠ t.prod →
       s.prod = .checking i ∧ s.aborted = false) ∧
    (s.prod.isStopped = true → t.queue.length ≤ s.queue.length ∧
       t.prod.isStopped = true) := by
  cases hst
  case fetchOk i0 it h1 h2 h3 =>
    refine ⟨?_, ?_, ?_⟩
    · intro i hc ha hne
      rw [h1] at hc
      exact nomatch hc
    · intro i hf hne
      exact nomatch (show ProdPC.putting i0 = ProdPC.fetching (i + 1) from hf)
    · intro hstop
      rw [h1] at hstop
      exact nomatch hstop
  case fetchEnd i0 h1 h2 =>
    refine ⟨?_, ?_, ?_⟩
    · intro i hc ha hne
      rw [h1] at hc
      exact nomatch hc
    · intro i hf hne
      exact nomatch (show ProdPC.assignCursor i0 = ProdPC.fetching (i + 1) from hf)
    · intro hstop
      rw [h1] at hstop
      exact nomatch hstop
  case fetchFail i0 h1 h2 h3 =>
    refine ⟨?_, ?_, ?_⟩
    · intro i hc ha hne
      rw [h1] at hc
      exact nomatch hc
    · intro i hf hne
      exact nomatch (show ProdPC.failed i0 = ProdPC.fetching (i + 1) from hf)
    · intro hstop
      rw [h1] at hstop
      exact nomatch hstop
  case put i0 it h1 h2 h3 =>
    refine ⟨?_, ?_, ?_⟩
    · intro i hc ha hne
      rw [h1] at hc
      exact nomatch hc
    · intro i hf hne
      exact nomatch (show ProdPC.checking i0 = ProdPC.fetching (i + 1) from hf)
    · intro hstop
      rw [h1] at hstop
      exact nomatch hstop
  case checkGo i0 h1 h2 =>
    refine ⟨?_, ?_, ?_⟩
    · intro i hc ha hne
      rw [h2] at ha
      exact nomatch ha
    · intro i hf hne
      have hf2 : ProdPC.fetching (i0 + 1) = ProdPC.fetching (i + 1) := hf
      have hii : i0 = i := by injection hf2 with h4; omega
      subst hii
      exact ⟨h1, h2⟩
    · intro hstop
      rw [h1] at hstop
      exact nomatch hstop
  case checkStop i0 h1 h2 =>
    refine ⟨?_, ?_, ?_⟩
    · intro i hc ha hne
      rw [h1] at hc
      have hii : i0 = i := by injection hc with h4
      subst hii
      exact ⟨rfl, rfl⟩
    · intro i hf hne
      exact nomatch (show ProdPC.assignCursor (i0 + 1) = ProdPC.fetching (i + 1) from hf)
    · intro hstop
      rw [h1] at hstop
      exact nomatch hstop
  case assign y h1 =>
    refine ⟨?_, ?_, ?_⟩
    · intro i hc ha hne
      rw [h1] at hc
      exact nomatch hc
    · intro i hf hne
      exact nomatch (show ProdPC.done y = ProdPC.fetching (i + 1) from hf)
    · intro hstop
      exact ⟨le_refl _, rfl⟩
  case sigAbort =>
    refine ⟨?_, ?_, ?_⟩
    · intro i hc ha hne
      exact absurd rfl hne
    · intro i hf hne
      exact absurd rfl hne
    · intro hstop
      exact ⟨le_refl _, hstop⟩
  case wExit w h1 h2 h3 =>
    refine ⟨?_, ?_, ?_⟩
    · intro i hc ha hne
      exact absurd rfl hne
    · intro i hf hne
      exact absurd rfl hne
    · intro hstop
      exact ⟨le_refl _, hstop⟩
  case wGo w h1 h2 =>
    refine ⟨?_, ?_, ?_⟩
    · intro i hc ha hne
      exact absurd rfl hne
    · intro i hf hne
      exact absurd rfl hne
    · intro hstop
      exact ⟨le_refl _, hstop⟩
  case wGet w it rest h1 h2 =>
    refine ⟨?_, ?_, ?_⟩
    · intro i hc ha hne
      exact absurd rfl hne
    · intro i hf hne
      exact absurd rfl hne
    · intro hstop
      constructor
      · show rest.length ≤ s.queue.length
        rw [h2]
        simp
      · exact hstop
  case wProcOk w it h1 h2 =>
    refine ⟨?_, ?_, ?_⟩
    · intro i hc ha hne
      exact absurd rfl hne
    · intro i hf hne
      exact absurd rfl hne
    · intro hstop
      exact ⟨le_refl _, hstop⟩
  case wProcFail w it h1 h2 =>
    refine ⟨?_, ?_, ?_⟩
    · intro i hc ha hne
      exact absurd rfl hne
    · intro i hf hne
      exact absurd rfl hne
    · intro hstop
      exact ⟨le_refl _, hstop⟩

/-- C5 witness: from `sP3` (item enqueued, flag set) the producer's check
observes the flag and breaks to the cursor assignment, enqueuing
nothing. -/
theorem producer_abort_discipline_witness :
    sP4.prod = ProdPC.assignCursor 1 ∧ sP4.queue = sP3.queue :=
  (producer_abort_discipline ctx1 (Step.checkStop sP3 0 rfl rfl)).1 0 rfl rfl
    (by decide)

/-- C4 (amended).  For every step of a run in which each item's processing
succeeds, and every worker: the worker reaches the normal exit `done`
exactly when its `while` test observes the abort flag set and the queue
empty; from that observation the only move is to exit; and a worker's
task only ever finishes on an empty queue.  (Without the
success assumption a per-item exception exits the loop with items still
queued -- see the counterexample.) -/
theorem worker_exit_discipline (ctx : Ctx)
    (hall : ∀ it, ctx.procOk it = true) {s t : PState}
    (hst : Step ctx s t) (w : Nat) (pc pc2 : WorkPC)
    (hs : s.workers.get? w = some pc) (ht : t.workers.get? w = some pc2) :
    (pc2 = .done → pc ≠ .done →
       pc = .checking ∧ s.aborted = true ∧ s.queue = []) ∧
    (pc = .checking → s.aborted = true → s.queue = [] → pc2 ≠ .checking →
       pc2 = .done) ∧
    (pc.isExited = false → pc2.isExited = true → s.queue = []) := by
  have triv : pc2 = pc →
      (pc2 = .done → pc ≠ .done →
         pc = .checking ∧ s.aborted = true ∧ s.queue = []) ∧
      (pc = .checking → s.aborted = true → s.queue = [] → pc2 ≠ .checking →
         pc2 = .done) ∧
      (pc.isExited = false → pc2.isExited = true → s.queue = []) := by
    intro hpp
    subst hpp
    refine ⟨?_, ?_, ?_⟩
    · intro h1 h2
      exact absurd h1 h2
    · intro h1 _ _ h4
      exact absurd h1 h4
    · intro h1 h2
      rw [h1] at h2
      exact nomatch h2
  have hlt : w < s.workers.length := getSomeLt _ _ _ (by simpa using hs)
  cases hst
  case wExit w2 h1 h2 h3 =>
    by_cases hww : w = w2
    · subst hww
      have hpc : pc = .checking := by
        rw [hs] at h1
        exact Option.some.inj h1
      have ht2 : (s.workers.set w .done).get? w = some pc2 := ht
      rw [List.get?_eq_getElem?, setGetSame _ _ _ hlt] at ht2
      have hpc2 : pc2 = .done := (Option.some.inj ht2).symm
      refine ⟨?_, ?_, ?_⟩
      · intro _ _
        exact ⟨hpc, h2, h3⟩
      · intro _ _ _ _
        exact hpc2
      · intro _ _
        exact h3
    · have ht2 : s.workers.get? w = some pc2 := by
        have h4 := ht
        simpa [setGetOther _ _ _ _ hww] using h4
      rw [hs] at ht2
      exact triv (Option.some.inj ht2).symm
  case wGo w2 h1 h2 =>
    by_cases hww : w = w2
    · subst hww
      have hpc : pc = .checking := by
        rw [hs] at h1
        exact Option.some.inj h1
      have ht2 : (s.workers.set w .getting).get? w = some pc2 := ht
      rw [List.get?_eq_getElem?, setGetSame _ _ _ hlt] at ht2
      have hpc2 : pc2 = .getting := (Option.some.inj ht2).symm
      refine ⟨?_, ?_, ?_⟩
      · intro hd _
        rw [hpc2] at hd
        exact nomatch hd
      · intro _ ha hq _
        rcases h2 with h2 | h2
        · rw [ha] at h2
          exact nomatch h2
        · exact absurd hq h2
      · intro _ hy
        rw [hpc2] at hy
        exact nomatch hy
    · have ht2 : s.workers.get? w = some pc2 := by
        have h4 := ht
        simpa [setGetOther _ _ _ _ hww] using h4
      rw [hs] at ht2
      exact triv (Option.some.inj ht2).symm
  case wGet w2 it rest h1 h2 =>
    by_cases hww : w = w2
    · subst hww
      have hpc : pc = .getting := by
        rw [hs] at h1
        exact Option.some.inj h1
      have ht2 : (s.workers.set w (.processing it)).get? w = some pc2 := ht
      rw [List.get?_eq_getElem?, setGetSame _ _ _ hlt] at ht2
      have hpc2 : pc2 = .processing it := (Option.some.inj ht2).symm
      refine ⟨?_, ?_, ?_⟩
      · intro hd _
        rw [hpc2] at hd
        exact nomatch hd
      · intro h1'
        rw [hpc] at h1'
        exact nomatch h1'
      · intro _ hy
        rw [hpc2] at hy
        exact nomatch hy
    · have ht2 : s.workers.get? w = some pc2 := by
        have h4 := ht
        simpa [setGetOther _ _ _ _ hww] using h4
      rw [hs] at ht2
      exact triv (Option.some.inj ht2).symm
  case wProcOk w2 it h1 h2 =>
    by_cases hww : w = w2
    · subst hww
      have hpc : pc = .processing it := by
        rw [hs] at h1
        exact Option.some.inj h1
      have ht2 : (s.workers.set w .checking).get? w = some pc2 := ht
      rw [List.get?_eq_getElem?, setGetSame _ _ _ hlt] at ht2
      have hpc2 : pc2 = .checking := (Option.some.inj ht2).symm
      refine ⟨?_, ?_, ?_⟩
      · intro hd _
        rw [hpc2] at hd
        exact nomatch hd
      · intro h1'
        rw [hpc] at h1'
        exact nomatch h1'
      · intro _ hy
        rw [hpc2] at hy
        exact nomatch hy
    · have ht2 : s.workers.get? w = some pc2 := by
        have h4 := ht
        simpa [setGetOther _ _ _ _ hww] using h4
      rw [hs] at ht2
      exact triv (Option.some.inj ht2).symm
  case wProcFail w2 it h1 h2 =>
    rw [hall it] at h2
    exact nomatch h2
  all_goals
    have ht2 : s.workers.get? w = some pc2 := ht
    rw [hs] at ht2
    exact triv (Option.some.inj ht2).symm

/-- C4 witness: in run `ctx1` (all items succeed), the step from `sA7` to
`sA8` is a worker exit: it happened from `checking` with flag set and
queue empty, and `done` was the only move. -/
theorem worker_exit_discipline_witness :
    (WorkPC.done = WorkPC.done → WorkPC.checking ≠ WorkPC.done →
       WorkPC.checking = WorkPC.checking ∧ sA7.aborted = true ∧
       sA7.queue = []) ∧
    (WorkPC.checking = WorkPC.checking → sA7.aborted = true →
       sA7.queue = [] → WorkPC.done ≠ WorkPC.checking →
       WorkPC.done = WorkPC.done) ∧
    (WorkPC.checking.isExited = false → WorkPC.done.isExited = true →
       sA7.queue = []) :=
  worker_exit_discipline ctx1 (fun _ => rfl) (Step.wExit sA7 0 rfl rfl rfl)
    0 .checking .done rfl rfl

/-- C9 counterexample.  Two pairs of distinct identifiers whose derived
output paths collide: the metadata path of id `a` equals the content
path of id `a.json` under directory `out`, and the metadata path of id
`b` equals the content path of the absolute id `/o/b.json` under
directory `/o`. -/
theorem output_paths_collide :
    metaPath "out" "a" = contentPath "out" "a.json" ∧
    ("a" : String) ≠ "a.json" ∧
    metaPath "/o" "b" = contentPath "/o" "/o/b.json" ∧
    ("b" : String) ≠ "/o/b.json" :=
  ⟨by decide, by decide, by decide, by decide⟩

theorem string_append_cancel_right (a b c : String) (h : a ++ c = b ++ c) :
    a = b := by
  have hd : a.data ++ c.data = b.data ++ c.data := by
    have := congrArg String.data h
    simpa using this
  have hab : a.data = b.data := List.append_cancel_right hd
  exact congrArg String.mk hab

/-- C9 (amended).  For a shared output directory and two distinct
identifiers that stay relative (no leading separator) and are not each
other with `.json` appended, the four derived output paths -- metadata
and content for each -- are pairwise distinct, so no two workers write
the same file. -/
theorem output_paths_distinct (dir a b : String)
    (ha : startsWithSlash a = false) (hb : startsWithSlash b = false)
    (hab : a ≠ b) (haj : a ≠ b ++ ".json") (hbj : b ≠ a ++ ".json") :
    contentPath dir a ≠ contentPath dir b ∧
    metaPath dir a ≠ metaPath dir b ∧
    metaPath dir a ≠ contentPath dir a ∧
    metaPath dir b ≠ contentPath dir b ∧
    metaPath dir a ≠ contentPath dir b ∧
    metaPath dir b ≠ contentPath dir a := by
  have hra : contentPath dir a = dirSlash dir ++ a :=
    osPathJoin_rel dir a (by simp [ha])
  have hrb : contentPath dir b = dirSlash dir ++ b :=
    osPathJoin_rel dir b (by simp [hb])
  refine ⟨?_, ?_, ?_, ?_, ?_, ?_⟩
  · rw [hra, hrb]
    exact fun hc => hab (string_append_cancel _ _ _ hc)
  · rw [metaPath, metaPath, hra, hrb]
    intro hc
    have h2 : dirSlash dir ++ a = dirSlash dir ++ b :=
      string_append_cancel_right _ _ _ hc
    exact hab (string_append_cancel _ _ _ h2)
  · rw [metaPath]
    exact fun hc => string_ne_self_append_json (contentPath dir a) hc.symm
  · rw [metaPath]
    exact fun hc => string_ne_self_append_json (contentPath dir b) hc.symm
  · rw [metaPath, hra, hrb]
    intro hc
    rw [String.append_assoc] at hc
    exact hbj (string_append_cancel _ _ _ hc).symm
  · rw [metaPath, hrb, hra]
    intro hc
    rw [String.append_assoc] at hc
    exact haj (string_append_cancel _ _ _ hc).symm

/-- C9 witness: directory `out` with identifiers `x` and `y`. -/
theorem output_paths_distinct_witness :
    contentPath "out" "x" ≠ contentPath "out" "y" ∧
    metaPath "out" "x" ≠ metaPath "out" "y" ∧
    metaPath "out" "x" ≠ contentPath "out" "x" ∧
    metaPath "out" "y" ≠ contentPath "out" "y" ∧
    metaPath "out" "x" ≠ contentPath "out" "y" ∧
    metaPath "out" "y" ≠ contentPath "out" "x" :=
  output_paths_distinct "out" "x" "y" (by decide) (by decide) (by decide)
    (by decide) (by decide)

end FileFeed

